import Mathlib

/-
  Verification of the low-latency DC trading pipeline.

  Shallow embedding of the C++ sources:
    - DCIndicator (directional-change detector), from src/src/common/Logger.cpp
      (appended DCIndicator.cpp) and include/common/DCIndicator.h;
    - StrategyEngine signal and order-sizing rules, from src/src/common/Config.cpp
      (appended StrategyEngine.cpp);
    - ExecutionEngine performance accumulator, from src/src/execution/ExecutionEngine.cpp.

  IEEE-754 doubles are modelled by the type FP: a finite value idealized as an
  exact rational (rounding is not modelled), a quiet NaN, or a signed infinity,
  with IEEE special-value and comparison semantics. Signed zero is collapsed to
  the single rational 0 with positive sign. int64 timestamps are modelled as Int.
-/

namespace trading

/-- FP models an IEEE-754 double: a finite value (exact rational; rounding not
modelled), NaN, or a signed infinity. -/
inductive FP where
  | fin (x : ℚ)
  | nan
  | pinf
  | ninf
  deriving DecidableEq

/-- isNan models std::isnan. -/
def FP.isNan : FP → Bool
  | .nan => true
  | _ => false

/-- Subtraction with IEEE special-value semantics. -/
def FP.sub : FP → FP → FP
  | .fin a, .fin b => .fin (a - b)
  | .nan, _ => .nan
  | _, .nan => .nan
  | .pinf, .pinf => .nan
  | .pinf, _ => .pinf
  | .ninf, .ninf => .nan
  | .ninf, _ => .ninf
  | .fin _, .pinf => .ninf
  | .fin _, .ninf => .pinf

/-- Multiplication with IEEE special-value semantics. -/
def FP.mul : FP → FP → FP
  | .fin a, .fin b => .fin (a * b)
  | .nan, _ => .nan
  | _, .nan => .nan
  | .pinf, .pinf => .pinf
  | .pinf, .ninf => .ninf
  | .ninf, .pinf => .ninf
  | .ninf, .ninf => .pinf
  | .pinf, .fin b => if b = 0 then .nan else if 0 < b then .pinf else .ninf
  | .ninf, .fin b => if b = 0 then .nan else if 0 < b then .ninf else .pinf
  | .fin a, .pinf => if a = 0 then .nan else if 0 < a then .pinf else .ninf
  | .fin a, .ninf => if a = 0 then .nan else if 0 < a then .ninf else .pinf

/-- Division with IEEE special-value semantics (x/0 is a signed infinity for
x nonzero, NaN for 0/0; the zero here always carries positive sign). -/
def FP.div : FP → FP → FP
  | .fin a, .fin b =>
      if b = 0 then (if a = 0 then .nan else if 0 < a then .pinf else .ninf)
      else .fin (a / b)
  | .nan, _ => .nan
  | _, .nan => .nan
  | .pinf, .pinf => .nan
  | .pinf, .ninf => .nan
  | .ninf, .pinf => .nan
  | .ninf, .ninf => .nan
  | .pinf, .fin b => if 0 ≤ b then .pinf else .ninf
  | .ninf, .fin b => if 0 ≤ b then .ninf else .pinf
  | .fin _, .pinf => .fin 0
  | .fin _, .ninf => .fin 0

/-- Absolute value (std::abs on doubles). -/
def FP.abs : FP → FP
  | .fin a => .fin |a|
  | .nan => .nan
  | .pinf => .pinf
  | .ninf => .pinf

/-- Strict less-than with IEEE semantics: any comparison with NaN is false. -/
def FP.lt : FP → FP → Bool
  | .fin a, .fin b => decide (a < b)
  | .nan, _ => false
  | _, .nan => false
  | .ninf, .ninf => false
  | .ninf, _ => true
  | _, .ninf => false
  | .pinf, _ => false
  | .fin _, .pinf => true

/-- Non-strict less-than with IEEE semantics: any comparison with NaN is false. -/
def FP.le : FP → FP → Bool
  | .fin a, .fin b => decide (a ≤ b)
  | .nan, _ => false
  | _, .nan => false
  | .ninf, _ => true
  | _, .ninf => false
  | _, .pinf => true
  | .pinf, .fin _ => false

/-- DCEventType from include/common/DCIndicator.h. -/
inductive DCEventType where
  | NONE
  | UPTURN
  | DOWNTURN
  deriving DecidableEq

/-- DCEvent from include/common/DCIndicator.h, with the default-constructor
values as field defaults. -/
structure DCEvent where
  type : DCEventType := .NONE
  timestamp : Int := 0
  price : FP := .fin 0
  tmv_ext : FP := .fin 0
  duration : Int := 0
  time_adjusted_return : FP := .fin 0
  deriving DecidableEq

/-- MarketDataPoint from include/common/DCIndicator.h. -/
structure MarketDataPoint where
  timestamp : Int
  price : FP
  volume : FP := .fin 0
  deriving DecidableEq

/-- DCIndicator state, from include/common/DCIndicator.h (field names kept). -/
structure DCIndicator where
  theta_ : ℚ
  current_trend_ : Int
  extreme_price_ : FP
  extreme_timestamp_ : Int
  last_dc_price_ : FP
  last_dc_timestamp_ : Int
  last_dc_event_ : DCEvent := {}
  deriving DecidableEq

/-- The DCIndicator constructor: theta is stored, trend is 0 (unknown), extremes
are NaN, timestamps 0. -/
def DCIndicator.create (theta : ℚ) : DCIndicator :=
  { theta_ := theta
    current_trend_ := 0
    extreme_price_ := .nan
    extreme_timestamp_ := 0
    last_dc_price_ := .nan
    last_dc_timestamp_ := 0
    last_dc_event_ := {} }

/-- DCIndicator::calculateTMV. -/
def DCIndicator.calculateTMV (s : DCIndicator) (current_price previous_extreme : FP) : FP :=
  if previous_extreme.isNan ∨ previous_extreme = FP.fin 0 then .fin 0
  else ((current_price.sub previous_extreme).abs).div (previous_extreme.mul (.fin s.theta_))

/-- DCIndicator::calculateDuration. -/
def DCIndicator.calculateDuration (s : DCIndicator) (current_time previous_time : Int) : Int :=
  current_time - previous_time

/-- DCIndicator::calculateTimeAdjustedReturn; duration is converted from
nanoseconds to seconds before dividing. -/
def DCIndicator.calculateTimeAdjustedReturn (s : DCIndicator) (tmv : FP) (duration : Int) : FP :=
  if duration ≤ 0 then .fin 0
  else (tmv.div (.fin ((duration : ℚ) / 1000000000))).mul (.fin s.theta_)

/-- DCIndicator::isUpwardDC. -/
def DCIndicator.isUpwardDC (s : DCIndicator) (current_price extreme_price : FP) : Bool :=
  if extreme_price.isNan then false
  else FP.le (.fin s.theta_) ((current_price.sub extreme_price).div extreme_price)

/-- DCIndicator::isDownwardDC. -/
def DCIndicator.isDownwardDC (s : DCIndicator) (current_price extreme_price : FP) : Bool :=
  if extreme_price.isNan then false
  else FP.le (.fin s.theta_) ((extreme_price.sub current_price).div extreme_price)

/-- DCIndicator::processDataPoint, written as state passing: returns the event
and the updated detector. Mirrors the source control flow: initialization on the
first data point, extreme update, DC check, then the dc_detected block that
builds the event and rotates the state. -/
def DCIndicator.processDataPoint (s : DCIndicator) (data_point : MarketDataPoint) :
    DCEvent × DCIndicator :=
  if s.extreme_price_.isNan then
    ({}, { s with
            extreme_price_ := data_point.price
            extreme_timestamp_ := data_point.timestamp
            last_dc_price_ := data_point.price
            last_dc_timestamp_ := data_point.timestamp })
  else
    let s1 : DCIndicator :=
      if 0 ≤ s.current_trend_ then
        if FP.lt s.extreme_price_ data_point.price then
          { s with extreme_price_ := data_point.price
                   extreme_timestamp_ := data_point.timestamp }
        else s
      else
        if FP.lt data_point.price s.extreme_price_ then
          { s with extreme_price_ := data_point.price
                   extreme_timestamp_ := data_point.timestamp }
        else s
    let detected : DCEventType :=
      if 0 ≤ s.current_trend_ then
        (if s.isDownwardDC data_point.price s1.extreme_price_ then .DOWNTURN else .NONE)
      else
        (if s.isUpwardDC data_point.price s1.extreme_price_ then .UPTURN else .NONE)
    if detected = DCEventType.NONE then ({}, s1)
    else
      let tmv := s.calculateTMV data_point.price s1.extreme_price_
      let dur := s.calculateDuration s1.extreme_timestamp_ s1.last_dc_timestamp_
      let tar := s.calculateTimeAdjustedReturn tmv dur
      let event : DCEvent :=
        { type := detected
          timestamp := data_point.timestamp
          price := data_point.price
          tmv_ext := tmv
          duration := dur
          time_adjusted_return := tar }
      (event,
        { s1 with
            current_trend_ := if detected = DCEventType.DOWNTURN then -1 else 1
            last_dc_price_ := s1.extreme_price_
            last_dc_timestamp_ := s1.extreme_timestamp_
            extreme_price_ := data_point.price
            extreme_timestamp_ := data_point.timestamp
            last_dc_event_ := event })

/-- DCIndicator::reset. -/
def DCIndicator.reset (s : DCIndicator) : DCIndicator :=
  { s with
      current_trend_ := 0
      extreme_price_ := .nan
      extreme_timestamp_ := 0
      last_dc_price_ := .nan
      last_dc_timestamp_ := 0
      last_dc_event_ := {} }

/-- Process a whole tick list, collecting the per-tick returned events and the
final detector state. -/
def DCIndicator.processAll (s : DCIndicator) :
    List MarketDataPoint → List DCEvent × DCIndicator
  | [] => ([], s)
  | dp :: rest =>
      let r := s.processDataPoint dp
      let r2 := r.2.processAll rest
      (r.1 :: r2.1, r2.2)

/-- The step trace of a run: for each tick, the state before, the tick, the
returned event, and the state after. -/
def DCIndicator.steps (s : DCIndicator) :
    List MarketDataPoint → List (DCIndicator × MarketDataPoint × DCEvent × DCIndicator)
  | [] => []
  | dp :: rest =>
      let r := s.processDataPoint dp
      (s, dp, r.1, r.2) :: r.2.steps rest

/-- Events actually emitted by a run (kind not NONE); an event with kind NONE is
not published by the market-data processor. -/
def DCIndicator.emittedEvents (s : DCIndicator) (l : List MarketDataPoint) : List DCEvent :=
  ((s.processAll l).1).filter (fun ev => decide (ev.type ≠ DCEventType.NONE))

/-- SignalType from the strategy headers (0=none, 1=buy, 2=sell, 3=hold). -/
inductive SignalType where
  | NONE
  | BUY
  | SELL
  | HOLD
  deriving DecidableEq

/-- MarketState used by the simplified volatility-regime classifier. -/
inductive MarketState where
  | UNKNOWN
  | LOW_VOLATILITY
  | HIGH_VOLATILITY
  deriving DecidableEq

/-- DCSignalMessage wire record (symbol omitted: it does not enter the signal
or sizing rules). -/
structure DCSignalMessage where
  timestamp : Int
  event_type : DCEventType
  price : FP
  tmv_ext : FP
  duration : Int
  time_adjusted_return : FP
  deriving DecidableEq

/-- MarketDataProcessor::publishDCSignal field copy: the published DC signal
carries the event fields verbatim. -/
def publishDCSignal (dc_event : DCEvent) : DCSignalMessage :=
  { timestamp := dc_event.timestamp
    event_type := dc_event.type
    price := dc_event.price
    tmv_ext := dc_event.tmv_ext
    duration := dc_event.duration
    time_adjusted_return := dc_event.time_adjusted_return }

/-- StrategyEngine::generateTradingSignal: upturn with positive time-adjusted
return gives BUY, downturn with negative time-adjusted return gives SELL,
otherwise NONE. (The HMM branch in the source only logs; it does not change the
returned signal.) -/
def generateTradingSignal (dc_signal : DCSignalMessage) : SignalType :=
  match dc_signal.event_type with
  | .UPTURN =>
      if FP.lt (.fin 0) dc_signal.time_adjusted_return then .BUY else .NONE
  | .DOWNTURN =>
      if FP.lt dc_signal.time_adjusted_return (.fin 0) then .SELL else .NONE
  | .NONE => .NONE

/-- StrategyEngine::getVolatilityAdjustedLeverage. -/
def getVolatilityAdjustedLeverage (current_market_state : MarketState) : ℚ :=
  match current_market_state with
  | .LOW_VOLATILITY => 3 / 2
  | .HIGH_VOLATILITY => 1 / 2
  | .UNKNOWN => 1

/-- StrategyEngine::calculateOrderQuantity. Prices and quantities are finite
doubles here, idealized as exact rationals. The signal argument is unused in
the source as well. -/
def calculateOrderQuantity (hmm_enabled : Bool) (current_market_state : MarketState)
    (leverage_factor : ℚ) (signal : SignalType) (price : ℚ) : ℚ :=
  let base_quantity : ℚ := 100
  let quantity := base_quantity * leverage_factor
  let quantity :=
    if hmm_enabled then quantity * getVolatilityAdjustedLeverage current_market_state
    else quantity
  let quantity := if 0 < price then min quantity (10000 / price) else quantity
  max 1 quantity

/-- ExecutionStatus from the execution headers. -/
inductive ExecutionStatus where
  | PENDING
  | FILLED
  | PARTIALLY_FILLED
  | REJECTED
  | CANCELLED
  deriving DecidableEq

/-- TradeExecution restricted to the fields the performance accumulator reads
(timestamps, order id, symbol and the latency fields are omitted: they only
feed the latency statistics, which do not interact with capital, peak or
drawdown). Prices and quantities are finite doubles idealized as rationals. -/
structure TradeExecution where
  signal : SignalType
  executed_price : ℚ
  executed_quantity : ℚ
  status : ExecutionStatus
  deriving DecidableEq

/-- ExecutionEngine accumulator state. last_price models the function-local
static variable in ExecutionEngine::calculatePnL: none before the first call,
and initialized to that call's executed price. The Sharpe window and the
latency statistics are omitted: they are write-only with respect to capital,
peak_capital and max_drawdown. -/
structure ExecutionEngine where
  initial_capital_ : ℚ
  current_capital_ : ℚ
  current_position_ : ℚ
  peak_capital_ : ℚ
  last_price : Option ℚ
  total_pnl : ℚ
  win_rate : ℚ
  total_trades : Nat
  winning_trades : Nat
  losing_trades : Nat
  max_drawdown : ℚ
  avg_trade_pnl : ℚ
  deriving DecidableEq

/-- ExecutionEngine constructor state: capital fields start at the initial
capital (100000 in the source constructor), all metrics zero. -/
def ExecutionEngine.create (initial_capital : ℚ) : ExecutionEngine :=
  { initial_capital_ := initial_capital
    current_capital_ := initial_capital
    current_position_ := 0
    peak_capital_ := initial_capital
    last_price := none
    total_pnl := 0
    win_rate := 0
    total_trades := 0
    winning_trades := 0
    losing_trades := 0
    max_drawdown := 0
    avg_trade_pnl := 0 }

/-- ExecutionEngine::calculatePnL: BUY realizes 0; SELL realizes
(executed_price - last_price) * executed_quantity against the static
last_price, which is then set to this execution's price in either case.
Returns the P&L and the new last_price. -/
def ExecutionEngine.calculatePnL (last_price : Option ℚ) (execution : TradeExecution) :
    ℚ × ℚ :=
  let lp := last_price.getD execution.executed_price
  let pnl : ℚ :=
    if execution.signal = SignalType.BUY then 0
    else if execution.signal = SignalType.SELL then
      (execution.executed_price - lp) * execution.executed_quantity
    else 0
  (pnl, execution.executed_price)

/-- ExecutionEngine::updateDrawdown: raise the peak to the current capital if
exceeded, then record the drawdown from peak if it is a new maximum. -/
def ExecutionEngine.updateDrawdown (s : ExecutionEngine) : ExecutionEngine :=
  let s :=
    if s.peak_capital_ < s.current_capital_ then { s with peak_capital_ := s.current_capital_ }
    else s
  let current_drawdown := (s.peak_capital_ - s.current_capital_) / s.peak_capital_
  if s.max_drawdown < current_drawdown then { s with max_drawdown := current_drawdown }
  else s

/-- ExecutionEngine::updatePerformanceMetrics for a trade execution: only
filled trades update the accumulator. Mirrors the source's update order; the
latency and Sharpe updates are omitted (they do not touch the fields here). -/
def ExecutionEngine.updatePerformanceMetrics (s : ExecutionEngine)
    (execution : TradeExecution) : ExecutionEngine :=
  if execution.status ≠ ExecutionStatus.FILLED then s
  else
    let r := ExecutionEngine.calculatePnL s.last_price execution
    let trade_pnl := r.1
    let s := { s with last_price := some r.2 }
    let s :=
      if execution.signal = SignalType.BUY then
        { s with current_position_ := s.current_position_ + execution.executed_quantity }
      else if execution.signal = SignalType.SELL then
        { s with current_position_ := s.current_position_ - execution.executed_quantity }
      else s
    let s := { s with current_capital_ := s.current_capital_ + trade_pnl }
    let s := { s with total_pnl := s.total_pnl + trade_pnl
                      total_trades := s.total_trades + 1 }
    let s :=
      if 0 < trade_pnl then { s with winning_trades := s.winning_trades + 1 }
      else if trade_pnl < 0 then { s with losing_trades := s.losing_trades + 1 }
      else s
    let s :=
      if 0 < s.total_trades then
        { s with win_rate := (s.winning_trades : ℚ) / (s.total_trades : ℚ) }
      else s
    let s := { s with avg_trade_pnl := s.total_pnl / (s.total_trades : ℚ) }
    s.updateDrawdown

/-- Fold the accumulator over a list of trade executions. -/
def ExecutionEngine.processAll (s : ExecutionEngine) : List TradeExecution → ExecutionEngine
  | [] => s
  | e :: rest => (s.updatePerformanceMetrics e).processAll rest

/-- The list of accumulator states along a run, starting with the state before
the first trade. -/
def ExecutionEngine.statesTrace (s : ExecutionEngine) : List TradeExecution → List ExecutionEngine
  | [] => [s]
  | e :: rest => s :: (s.updatePerformanceMetrics e).statesTrace rest

/-- End-to-end scenario A from the spec (θ = 0.01, ts = i × 10⁶ ns):
prices 100.0, 101.0, 102.0, 103.0, 101.5. -/
def scenarioA : List MarketDataPoint :=
  [⟨0, .fin 100, .fin 0⟩, ⟨1000000, .fin 101, .fin 0⟩, ⟨2000000, .fin 102, .fin 0⟩,
   ⟨3000000, .fin 103, .fin 0⟩, ⟨4000000, .fin (203 / 2), .fin 0⟩]

/-- Constructor facts used to evaluate ground runs by simp. -/
theorem downturn_ne_none : DCEventType.DOWNTURN ≠ DCEventType.NONE := by decide

/-- Constructor facts used to evaluate ground runs by simp. -/
theorem upturn_ne_none : DCEventType.UPTURN ≠ DCEventType.NONE := by decide

/-- Constructor facts used to evaluate ground runs by simp. -/
theorem sell_ne_buy : SignalType.SELL ≠ SignalType.BUY := by decide

/-- Claim C1: the spec says every emitted event's tmv_ext equals
|extreme_price − previous_extreme_price| / (previous_extreme_price · θ), which
on scenario A (θ = 0.01) would be (103 − 100)/(100 · 0.01) = 3. The code calls
calculateTMV with the confirming tick price and the running extreme instead,
so the single downturn of scenario A carries tmv_ext = 1.5/(103 · 0.01) =
150/103 ≈ 1.456, not 3: the implementation contradicts its own formula comment
and never reads last_dc_price_. -/
theorem C1_tmv_divergence :
    (DCIndicator.create (1 / 100)).emittedEvents scenarioA =
      [{ type := DCEventType.DOWNTURN
         timestamp := 4000000
         price := FP.fin (203 / 2)
         tmv_ext := FP.fin (150 / 103)
         duration := 3000000
         time_adjusted_return := FP.fin (500 / 103) }] ∧
    FP.fin (150 / 103) ≠ FP.fin 3 := by
  norm_num [DCIndicator.emittedEvents, DCIndicator.processAll, DCIndicator.processDataPoint,
    DCIndicator.create, DCIndicator.calculateTMV, DCIndicator.calculateDuration,
    DCIndicator.calculateTimeAdjustedReturn, DCIndicator.isUpwardDC, DCIndicator.isDownwardDC,
    FP.sub, FP.mul, FP.div, FP.abs, FP.lt, FP.le, FP.isNan, scenarioA, downturn_ne_none,
    List.filter, abs_of_pos]

/-- Claim C3 counterexample: a tick with price −∞ on an initialized detector in
an up/unknown trend is not rejected: processDataPoint emits a DOWNTURN event
(kind ≠ none) and changes the detector state, contradicting the claim that any
non-finite price yields a none event and leaves the state unchanged. -/
theorem C3_counterexample :
    (((DCIndicator.create (1 / 100)).processDataPoint
        ⟨0, FP.fin 100, FP.fin 0⟩).2.processDataPoint
        ⟨1000, FP.ninf, FP.fin 0⟩).1.type = DCEventType.DOWNTURN ∧
    (((DCIndicator.create (1 / 100)).processDataPoint
        ⟨0, FP.fin 100, FP.fin 0⟩).2.processDataPoint
        ⟨1000, FP.ninf, FP.fin 0⟩).2 ≠
      ((DCIndicator.create (1 / 100)).processDataPoint ⟨0, FP.fin 100, FP.fin 0⟩).2 := by
  norm_num [DCIndicator.processDataPoint, DCIndicator.create, DCIndicator.calculateTMV,
    DCIndicator.calculateDuration, DCIndicator.calculateTimeAdjustedReturn,
    DCIndicator.isUpwardDC, DCIndicator.isDownwardDC, FP.sub, FP.mul, FP.div, FP.abs,
    FP.lt, FP.le, FP.isNan, downturn_ne_none, DCIndicator.mk.injEq]

/-- Claim C4 counterexample: at price 20000 (leverage 1, regime modifier off)
the notional cap yields 10000/20000 = 0.5, the floor lifts it to 1, and the
resulting notional is 20000 > 10000, so quantity · price ≤ 10000 fails for a
price > 0. -/
theorem C4_counterexample :
    calculateOrderQuantity false MarketState.UNKNOWN 1 SignalType.BUY 20000 = 1 ∧
    ¬ calculateOrderQuantity false MarketState.UNKNOWN 1 SignalType.BUY 20000 * 20000 ≤
        10000 := by
  norm_num [calculateOrderQuantity, getVolatilityAdjustedLeverage]

/-- Claim C6 counterexample: ticks (ts 0, 100.0), (ts 10⁶, 98.0) with θ = 0.01
have non-decreasing timestamps, yet the emitted downturn has duration 0 (the
seed timestamp equals the previous-extreme timestamp), so the duration of an
emitted event need not be strictly positive. -/
theorem C6_counterexample :
    List.Pairwise (fun a b : MarketDataPoint => a.timestamp ≤ b.timestamp)
      [⟨0, FP.fin 100, FP.fin 0⟩, ⟨1000000, FP.fin 98, FP.fin 0⟩] ∧
    ((DCIndicator.create (1 / 100)).processAll
        [⟨0, FP.fin 100, FP.fin 0⟩, ⟨1000000, FP.fin 98, FP.fin 0⟩]).1.getLast? =
      some { type := DCEventType.DOWNTURN
             timestamp := 1000000
             price := FP.fin 98
             tmv_ext := FP.fin 2
             duration := 0
             time_adjusted_return := FP.fin 0 } := by
  norm_num [DCIndicator.processAll, DCIndicator.processDataPoint, DCIndicator.create,
    DCIndicator.calculateTMV, DCIndicator.calculateDuration,
    DCIndicator.calculateTimeAdjustedReturn, DCIndicator.isUpwardDC,
    DCIndicator.isDownwardDC, FP.sub, FP.mul, FP.div, FP.abs, FP.lt, FP.le, FP.isNan,
    downturn_ne_none, List.getLast?]

/-- Claim C7 counterexample: from initial capital 100000, a filled SELL at
price 100 (which initializes the static last_price) followed by a filled SELL
of 300000 units at price 1 drives current_capital to −29600000, and
max_drawdown becomes 297, far outside [0, 1]. -/
theorem C7_counterexample :
    ((ExecutionEngine.create 100000).processAll
        [⟨SignalType.SELL, 100, 1, ExecutionStatus.FILLED⟩,
         ⟨SignalType.SELL, 1, 300000, ExecutionStatus.FILLED⟩]).max_drawdown = 297 ∧
    ¬ ((ExecutionEngine.create 100000).processAll
        [⟨SignalType.SELL, 100, 1, ExecutionStatus.FILLED⟩,
         ⟨SignalType.SELL, 1, 300000, ExecutionStatus.FILLED⟩]).max_drawdown ≤ 1 := by
  norm_num [ExecutionEngine.processAll, ExecutionEngine.updatePerformanceMetrics,
    ExecutionEngine.calculatePnL, ExecutionEngine.updateDrawdown, ExecutionEngine.create,
    sell_ne_buy]

/-- isNan is false exactly away from nan. -/
theorem FP.isNan_eq_false {x : FP} (h : x ≠ FP.nan) : x.isNan = false := by
  cases x <;> simp_all [FP.isNan]

/-- Comparisons against NaN are false. -/
theorem FP.lt_nan_right (x : FP) : FP.lt x FP.nan = false := by
  cases x <;> rfl

/-- Comparisons against NaN are false. -/
theorem FP.lt_nan_left (x : FP) : FP.lt FP.nan x = false := by
  cases x <;> rfl

/-- Comparisons against NaN are false. -/
theorem FP.le_nan_right (x : FP) : FP.le x FP.nan = false := by
  cases x <;> rfl

/-- Subtraction propagates NaN. -/
theorem FP.sub_nan_right (x : FP) : x.sub FP.nan = FP.nan := by
  cases x <;> rfl

/-- Division propagates NaN. -/
theorem FP.nan_div (x : FP) : FP.nan.div x = FP.nan := by
  cases x <;> rfl

/-- The detector's threshold field is never modified by processDataPoint. -/
theorem DCIndicator.theta_step (s : DCIndicator) (dp : MarketDataPoint) :
    (s.processDataPoint dp).2.theta_ = s.theta_ := by
  unfold DCIndicator.processDataPoint
  dsimp only
  repeat' split
  all_goals rfl

/-- The detector's threshold field is never modified along a run. -/
theorem DCIndicator.theta_processAll (l : List MarketDataPoint) :
    ∀ s : DCIndicator, ((s.processAll l).2).theta_ = s.theta_ := by
  induction l with
  | nil => intro s; rfl
  | cons dp rest ih =>
      intro s
      simp only [DCIndicator.processAll]
      rw [ih, DCIndicator.theta_step]

/-- reset rebuilds exactly the constructor state with the same threshold. -/
theorem DCIndicator.reset_eq_create (s : DCIndicator) : s.reset = DCIndicator.create s.theta_ := by
  cases s
  rfl

/-- Claim C9: processing a tick list on a fresh detector with threshold θ and
processing it again on the same detector after reset() return the same
sequence of events, because reset restores the exact pre-first-tick state
while preserving θ, and processing is a pure function of the state. -/
theorem C9_reset_replay (θ : ℚ) (l : List MarketDataPoint) :
    (((((DCIndicator.create θ).processAll l).2).reset).processAll l).1 =
      ((DCIndicator.create θ).processAll l).1 := by
  rw [DCIndicator.reset_eq_create, DCIndicator.theta_processAll]
  rfl

/-- Claim C3, amended: for every detector state that is already initialized
(extreme_price_ is not NaN), a tick whose price is NaN yields the none event
and leaves the state unchanged; infinite prices, by contrast, are not rejected
(see the counterexample). -/
theorem C3_nan_rejected (s : DCIndicator) (dp : MarketDataPoint)
    (hs : s.extreme_price_ ≠ FP.nan) (hp : dp.price = FP.nan) :
    s.processDataPoint dp = ({}, s) := by
  unfold DCIndicator.processDataPoint
  rw [FP.isNan_eq_false hs]
  simp only [Bool.false_eq_true, if_false, hp, FP.lt_nan_right, FP.lt_nan_left,
    DCIndicator.isDownwardDC, DCIndicator.isUpwardDC, FP.sub_nan_right, FP.nan_div]
  have hdiv : ∀ e : FP, (FP.nan.sub e).div e = FP.nan := by
    intro e
    cases e <;> rfl
  have hsub : ∀ e : FP, (e.sub FP.nan).div e = FP.nan := by
    intro e
    cases e <;> simp [FP.sub, FP.div]
  simp only [hdiv, hsub, FP.le_nan_right, Bool.false_eq_true, if_false, ite_self]
  split <;> simp_all

/-- Witness for C3_nan_rejected at a concrete initialized detector state. -/
theorem C3_nan_rejected_witness :
    (⟨1 / 100, 0, FP.fin 100, 0, FP.fin 100, 0, {}⟩ : DCIndicator).extreme_price_ ≠ FP.nan ∧
    (⟨0, FP.nan, FP.fin 0⟩ : MarketDataPoint).price = FP.nan ∧
    (⟨1 / 100, 0, FP.fin 100, 0, FP.fin 100, 0, {}⟩ : DCIndicator).processDataPoint
        ⟨0, FP.nan, FP.fin 0⟩ =
      ({}, ⟨1 / 100, 0, FP.fin 100, 0, FP.fin 100, 0, {}⟩) :=
  ⟨by decide, rfl,
    C3_nan_rejected ⟨1 / 100, 0, FP.fin 100, 0, FP.fin 100, 0, {}⟩
      ⟨0, FP.nan, FP.fin 0⟩ (by decide) rfl⟩

/-- Claim C4, amended: the order quantity is always at least 1, and the
notional ceiling quantity · price ≤ 10000 holds for every positive price up to
10000; for prices above 10000 the floor of 1 overrides the ceiling (see the
counterexample). -/
theorem C4_quantity_bounds (hmm_enabled : Bool) (st : MarketState) (lev : ℚ)
    (sig : SignalType) (price : ℚ) :
    1 ≤ calculateOrderQuantity hmm_enabled st lev sig price ∧
    (0 < price → price ≤ 10000 →
      calculateOrderQuantity hmm_enabled st lev sig price * price ≤ 10000) := by
  unfold calculateOrderQuantity
  dsimp only
  constructor
  · exact le_max_left _ _
  · intro h1 h2
    rw [if_pos h1]
    have hr : (1 : ℚ) ≤ 10000 / price := by
      rw [le_div_iff₀ h1]
      linarith
    have hle : max 1 (min (if hmm_enabled then 100 * lev * getVolatilityAdjustedLeverage st
        else 100 * lev) (10000 / price)) ≤ 10000 / price :=
      max_le hr (min_le_right _ _)
    calc max 1 (min (if hmm_enabled then 100 * lev * getVolatilityAdjustedLeverage st
          else 100 * lev) (10000 / price)) * price
        ≤ (10000 / price) * price := by
          exact mul_le_mul_of_nonneg_right hle h1.le
      _ = 10000 := div_mul_cancel₀ _ h1.ne'

/-- Witness for C4_quantity_bounds at price 50. -/
theorem C4_quantity_bounds_witness :
    (1 ≤ calculateOrderQuantity false MarketState.UNKNOWN 1 SignalType.BUY 50 ∧
      ((0 : ℚ) < 50 → (50 : ℚ) ≤ 10000 →
        calculateOrderQuantity false MarketState.UNKNOWN 1 SignalType.BUY 50 * 50 ≤ 10000)) :=
  C4_quantity_bounds false MarketState.UNKNOWN 1 SignalType.BUY 50

/-- The event that processDataPoint constructs when a DC of kind t is confirmed
with pre-step state s, post-update running-extreme state s1, and tick dp
(restates the dc_detected block of the source). -/
def DCIndicator.dcEventAt (s s1 : DCIndicator) (dp : MarketDataPoint) (t : DCEventType) :
    DCEvent :=
  { type := t
    timestamp := dp.timestamp
    price := dp.price
    tmv_ext := s.calculateTMV dp.price s1.extreme_price_
    duration := s.calculateDuration s1.extreme_timestamp_ s1.last_dc_timestamp_
    time_adjusted_return :=
      s.calculateTimeAdjustedReturn (s.calculateTMV dp.price s1.extreme_price_)
        (s.calculateDuration s1.extreme_timestamp_ s1.last_dc_timestamp_) }

/-- The state rotation processDataPoint performs after emitting event ev with
new trend tr (restates the dc_detected block of the source). -/
def DCIndicator.rotated (s1 : DCIndicator) (dp : MarketDataPoint) (tr : Int) (ev : DCEvent) :
    DCIndicator :=
  { s1 with
      current_trend_ := tr
      last_dc_price_ := s1.extreme_price_
      last_dc_timestamp_ := s1.extreme_timestamp_
      extreme_price_ := dp.price
      extreme_timestamp_ := dp.timestamp
      last_dc_event_ := ev }

/-- Complete case description of one processDataPoint step: initialization on a
NaN extreme, or an extreme update followed by either no event or a
downturn/upturn with the event fields and rotation from the source. All later
run-level invariants are derived from this lemma. -/
theorem DCIndicator.processDataPoint_spec (s : DCIndicator) (dp : MarketDataPoint) :
    (s.extreme_price_.isNan = true ∧
      s.processDataPoint dp =
        ({}, { s with
                extreme_price_ := dp.price
                extreme_timestamp_ := dp.timestamp
                last_dc_price_ := dp.price
                last_dc_timestamp_ := dp.timestamp })) ∨
    (s.extreme_price_.isNan = false ∧
      ∃ s1 : DCIndicator,
        ((0 ≤ s.current_trend_ ∧ FP.lt s.extreme_price_ dp.price = true ∧
            s1 = { s with extreme_price_ := dp.price, extreme_timestamp_ := dp.timestamp }) ∨
         (0 ≤ s.current_trend_ ∧ FP.lt s.extreme_price_ dp.price = false ∧ s1 = s) ∨
         (s.current_trend_ < 0 ∧ FP.lt dp.price s.extreme_price_ = true ∧
            s1 = { s with extreme_price_ := dp.price, extreme_timestamp_ := dp.timestamp }) ∨
         (s.current_trend_ < 0 ∧ FP.lt dp.price s.extreme_price_ = false ∧ s1 = s)) ∧
        (((0 ≤ s.current_trend_ → s.isDownwardDC dp.price s1.extreme_price_ = false) ∧
          (s.current_trend_ < 0 → s.isUpwardDC dp.price s1.extreme_price_ = false) ∧
          s.processDataPoint dp = ({}, s1)) ∨
         (0 ≤ s.current_trend_ ∧ s.isDownwardDC dp.price s1.extreme_price_ = true ∧
          s.processDataPoint dp =
            (DCIndicator.dcEventAt s s1 dp DCEventType.DOWNTURN,
             DCIndicator.rotated s1 dp (-1)
               (DCIndicator.dcEventAt s s1 dp DCEventType.DOWNTURN))) ∨
         (s.current_trend_ < 0 ∧ s.isUpwardDC dp.price s1.extreme_price_ = true ∧
          s.processDataPoint dp =
            (DCIndicator.dcEventAt s s1 dp DCEventType.UPTURN,
             DCIndicator.rotated s1 dp 1
               (DCIndicator.dcEventAt s s1 dp DCEventType.UPTURN))))) := by
  by_cases c0 : s.extreme_price_.isNan
  · left
    refine ⟨c0, ?_⟩
    unfold DCIndicator.processDataPoint
    rw [if_pos c0]
  · right
    have c0' : s.extreme_price_.isNan = false := by
      simpa using c0
    refine ⟨c0', ?_⟩
    by_cases c1 : 0 ≤ s.current_trend_
    · by_cases c2 : FP.lt s.extreme_price_ dp.price
      · refine ⟨{ s with extreme_price_ := dp.price, extreme_timestamp_ := dp.timestamp },
          Or.inl ⟨c1, c2, rfl⟩, ?_⟩
        by_cases c3 : s.isDownwardDC dp.price dp.price
        · refine Or.inr (Or.inl ⟨c1, by simpa using c3, ?_⟩)
          unfold DCIndicator.processDataPoint
          simp [c0', c1, c2, c3, DCIndicator.dcEventAt, DCIndicator.rotated,
            downturn_ne_none]
        · refine Or.inl ⟨fun _ => by simpa using c3, fun h => absurd c1 (by omega), ?_⟩
          unfold DCIndicator.processDataPoint
          simp [c0', c1, c2, c3]
      · refine ⟨s, Or.inr (Or.inl ⟨c1, by simpa using c2, rfl⟩), ?_⟩
        by_cases c3 : s.isDownwardDC dp.price s.extreme_price_
        · refine Or.inr (Or.inl ⟨c1, c3, ?_⟩)
          unfold DCIndicator.processDataPoint
          simp [c0', c1, c2, c3, DCIndicator.dcEventAt, DCIndicator.rotated,
            downturn_ne_none]
        · refine Or.inl ⟨fun _ => by simpa using c3, fun h => absurd c1 (by omega), ?_⟩
          unfold DCIndicator.processDataPoint
          simp [c0', c1, c2, c3]
    · have c1' : s.current_trend_ < 0 := by omega
      by_cases c2 : FP.lt dp.price s.extreme_price_
      · refine ⟨{ s with extreme_price_ := dp.price, extreme_timestamp_ := dp.timestamp },
          Or.inr (Or.inr (Or.inl ⟨c1', c2, rfl⟩)), ?_⟩
        by_cases c3 : s.isUpwardDC dp.price dp.price
        · refine Or.inr (Or.inr ⟨c1', by simpa using c3, ?_⟩)
          unfold DCIndicator.processDataPoint
          simp [c0', c1, c2, c3, DCIndicator.dcEventAt, DCIndicator.rotated,
            upturn_ne_none]
        · refine Or.inl ⟨fun h => absurd h c1, fun _ => by simpa using c3, ?_⟩
          unfold DCIndicator.processDataPoint
          simp [c0', c1, c2, c3]
      · refine ⟨s, Or.inr (Or.inr (Or.inr ⟨c1', by simpa using c2, rfl⟩)), ?_⟩
        by_cases c3 : s.isUpwardDC dp.price s.extreme_price_
        · refine Or.inr (Or.inr ⟨c1', c3, ?_⟩)
          unfold DCIndicator.processDataPoint
          simp [c0', c1, c2, c3, DCIndicator.dcEventAt, DCIndicator.rotated,
            upturn_ne_none]
        · refine Or.inl ⟨fun h => absurd h c1, fun _ => by simpa using c3, ?_⟩
          unfold DCIndicator.processDataPoint
          simp [c0', c1, c2, c3]

/-- Unfolding of processAll over the first tick of a run. -/
theorem DCIndicator.processAll_cons (s : DCIndicator) (dp : MarketDataPoint)
    (rest : List MarketDataPoint) :
    s.processAll (dp :: rest) =
      ((s.processDataPoint dp).1 :: ((s.processDataPoint dp).2.processAll rest).1,
       ((s.processDataPoint dp).2.processAll rest).2) := rfl

/-- Unfolding of emittedEvents over the first tick of a run. -/
theorem DCIndicator.emittedEvents_cons (s : DCIndicator) (dp : MarketDataPoint)
    (rest : List MarketDataPoint) :
    s.emittedEvents (dp :: rest) =
      (if (s.processDataPoint dp).1.type = DCEventType.NONE then []
       else [(s.processDataPoint dp).1]) ++ (s.processDataPoint dp).2.emittedEvents rest := by
  unfold DCIndicator.emittedEvents
  rw [DCIndicator.processAll_cons, List.filter_cons]
  by_cases h : (s.processDataPoint dp).1.type = DCEventType.NONE <;> simp [h]

/-- Consequences of one step for trend and event kind: a step that emits
nothing preserves the trend, a downturn is emitted only in trend up/unknown and
sets the trend to −1, an upturn only in a downtrend and sets it to 1. -/
theorem DCIndicator.step_trend (s : DCIndicator) (dp : MarketDataPoint) :
    ((s.processDataPoint dp).1.type = DCEventType.NONE ∧
      (s.processDataPoint dp).2.current_trend_ = s.current_trend_) ∨
    ((s.processDataPoint dp).1.type = DCEventType.DOWNTURN ∧ 0 ≤ s.current_trend_ ∧
      (s.processDataPoint dp).2.current_trend_ = -1) ∨
    ((s.processDataPoint dp).1.type = DCEventType.UPTURN ∧ s.current_trend_ < 0 ∧
      (s.processDataPoint dp).2.current_trend_ = 1) := by
  rcases s.processDataPoint_spec dp with ⟨hnan, hstep⟩ | ⟨hnan, s1, hs1, hdet⟩
  · left
    rw [hstep]
    exact ⟨rfl, rfl⟩
  · rcases hdet with ⟨hd, hu, hstep⟩ | ⟨htr, hd, hstep⟩ | ⟨htr, hu, hstep⟩
    · left
      rw [hstep]
      refine ⟨rfl, ?_⟩
      rcases hs1 with ⟨_, _, rfl⟩ | ⟨_, _, rfl⟩ | ⟨_, _, rfl⟩ | ⟨_, _, rfl⟩ <;> rfl
    · right
      left
      rw [hstep]
      exact ⟨rfl, htr, rfl⟩
    · right
      right
      rw [hstep]
      exact ⟨rfl, htr, rfl⟩

/-- Run-level alternation invariant: the emitted events of any run alternate in
kind, and the first emitted event's kind agrees with the starting trend. -/
theorem DCIndicator.emitted_alternation_aux (l : List MarketDataPoint) :
    ∀ s : DCIndicator,
      List.Chain' (fun a b : DCEvent => a.type ≠ b.type) (s.emittedEvents l) ∧
      ∀ ev, (s.emittedEvents l).head? = some ev →
        (0 ≤ s.current_trend_ → ev.type = DCEventType.DOWNTURN) ∧
        (s.current_trend_ < 0 → ev.type = DCEventType.UPTURN) := by
  induction l with
  | nil =>
      intro s
      constructor
      · simp [DCIndicator.emittedEvents, DCIndicator.processAll]
      · intro ev h
        simp [DCIndicator.emittedEvents, DCIndicator.processAll] at h
  | cons dp rest ih =>
      intro s
      rw [DCIndicator.emittedEvents_cons]
      rcases s.step_trend dp with ⟨hn, htr⟩ | ⟨hn, htr0, htr⟩ | ⟨hn, htr0, htr⟩
      · rw [if_pos hn]
        simp only [List.nil_append]
        refine ⟨(ih _).1, fun ev h => ?_⟩
        have h2 := (ih _).2 ev h
        rw [htr] at h2
        exact h2
      · rw [if_neg (by rw [hn]; exact downturn_ne_none)]
        simp only [List.singleton_append]
        have hrest := ih (s.processDataPoint dp).2
        have hlt : (s.processDataPoint dp).2.current_trend_ < 0 := by
          rw [htr]
          decide
        constructor
        · rw [List.chain'_cons']
          refine ⟨fun y hy => ?_, hrest.1⟩
          have h2 := (hrest.2 y (Option.mem_def.mp hy)).2 hlt
          rw [hn, h2]
          decide
        · intro ev h
          rw [List.head?_cons, Option.some_inj] at h
          subst h
          exact ⟨fun _ => hn, fun h' => absurd htr0 (by omega)⟩
      · rw [if_neg (by rw [hn]; exact upturn_ne_none)]
        simp only [List.singleton_append]
        have hrest := ih (s.processDataPoint dp).2
        have hge : 0 ≤ (s.processDataPoint dp).2.current_trend_ := by
          rw [htr]
          decide
        constructor
        · rw [List.chain'_cons']
          refine ⟨fun y hy => ?_, hrest.1⟩
          have h2 := (hrest.2 y (Option.mem_def.mp hy)).1 hge
          rw [hn, h2]
          decide
        · intro ev h
          rw [List.head?_cons, Option.some_inj] at h
          subst h
          exact ⟨fun h' => absurd h' (by omega), fun _ => hn⟩

/-- Claim C10: in every run of the detector, consecutively emitted events
strictly alternate in kind: a downturn is only emitted while the trend is up or
unknown (and sets it down), an upturn only while the trend is down (and sets it
up), so no two consecutive emitted events share a kind. Stated for an arbitrary
starting state, which covers runs from a fresh detector. -/
theorem C10_event_alternation (s : DCIndicator) (l : List MarketDataPoint) :
    List.Chain' (fun a b : DCEvent => a.type ≠ b.type) (s.emittedEvents l) :=
  (DCIndicator.emitted_alternation_aux l s).1

/-- Claim C8: on an initialized detector with positive threshold and positive
running extreme q, a tick at exactly q·(1 − θ) in trend up/unknown triggers a
downturn, and a tick at exactly q·(1 + θ) in a downtrend triggers an upturn:
the DC comparisons use ≥, so a move of exactly θ fires. -/
theorem C8_exact_theta_event (s : DCIndicator) (ts : Int) (q : ℚ)
    (hθ : 0 < s.theta_) (hq : 0 < q) (he : s.extreme_price_ = FP.fin q) :
    (0 ≤ s.current_trend_ →
      (s.processDataPoint ⟨ts, FP.fin (q * (1 - s.theta_)), FP.fin 0⟩).1.type =
        DCEventType.DOWNTURN) ∧
    (s.current_trend_ < 0 →
      (s.processDataPoint ⟨ts, FP.fin (q * (1 + s.theta_)), FP.fin 0⟩).1.type =
        DCEventType.UPTURN) := by
  have hnn : s.extreme_price_ ≠ FP.nan := by
    rw [he]
    exact fun h => FP.noConfusion h
  constructor
  · intro htr
    have hlt : FP.lt s.extreme_price_ (FP.fin (q * (1 - s.theta_))) = false := by
      rw [he]
      simp only [FP.lt, decide_eq_false_iff_not, not_lt]
      nlinarith
    have hdc : s.isDownwardDC (FP.fin (q * (1 - s.theta_))) s.extreme_price_ = true := by
      rw [he]
      unfold DCIndicator.isDownwardDC
      have hratio : (q - q * (1 - s.theta_)) / q = s.theta_ := by
        field_simp
        ring
      simp only [FP.isNan, Bool.false_eq_true, if_false, FP.sub, FP.div, FP.le]
      rw [if_neg hq.ne']
      simp [hratio]
    unfold DCIndicator.processDataPoint
    simp only [FP.isNan_eq_false hnn, Bool.false_eq_true, if_false, if_pos htr, hlt, hdc,
      if_true, if_neg (show ¬(0 : Int) ≤ s.current_trend_ → False from fun h => h htr)]
    simp [htr, downturn_ne_none]
  · intro htr
    have htr' : ¬ 0 ≤ s.current_trend_ := by omega
    have hlt : FP.lt (FP.fin (q * (1 + s.theta_))) s.extreme_price_ = false := by
      rw [he]
      simp only [FP.lt, decide_eq_false_iff_not, not_lt]
      nlinarith
    have hdc : s.isUpwardDC (FP.fin (q * (1 + s.theta_))) s.extreme_price_ = true := by
      rw [he]
      unfold DCIndicator.isUpwardDC
      have hratio : (q * (1 + s.theta_) - q) / q = s.theta_ := by
        field_simp
        ring
      simp only [FP.isNan, Bool.false_eq_true, if_false, FP.sub, FP.div, FP.le]
      rw [if_neg hq.ne']
      simp [hratio]
    unfold DCIndicator.processDataPoint
    simp only [FP.isNan_eq_false hnn, Bool.false_eq_true, if_false, hlt, hdc]
    simp [htr', hdc, upturn_ne_none]

/-- Witness for C8_exact_theta_event: a detector with θ = 0.01, trend unknown
and extreme 100 fires a downturn on a tick at exactly 99. -/
theorem C8_exact_theta_event_witness :
    (0 : ℚ) < (⟨1 / 100, 0, FP.fin 100, 0, FP.fin 100, 0, {}⟩ : DCIndicator).theta_ ∧
    ((⟨1 / 100, 0, FP.fin 100, 0, FP.fin 100, 0, {}⟩ : DCIndicator).processDataPoint
        ⟨5, FP.fin (100 * (1 - (⟨1 / 100, 0, FP.fin 100, 0, FP.fin 100, 0, {}⟩ :
          DCIndicator).theta_)), FP.fin 0⟩).1.type = DCEventType.DOWNTURN :=
  ⟨by norm_num,
    (C8_exact_theta_event ⟨1 / 100, 0, FP.fin 100, 0, FP.fin 100, 0, {}⟩ 5 100
      (by norm_num) (by norm_num) rfl).1 (by decide)⟩

/-- Nonnegative FP values are not below zero. -/
theorem FP.zero_le_not_lt_zero {x : FP} (h : FP.le (FP.fin 0) x = true) :
    FP.lt x (FP.fin 0) = false := by
  cases x <;> simp_all [FP.le, FP.lt]

/-- The DC ratio of a price against itself never reaches a positive threshold
(it is 0, or NaN at price 0 or non-finite prices). -/
theorem FP.guard_self (θ : ℚ) (p : FP) (hθ : 0 < θ) :
    FP.le (FP.fin θ) ((p.sub p).div p) = false := by
  cases p with
  | fin a =>
      by_cases h : a = 0
      · simp [FP.sub, FP.div, FP.le, h]
      · simp [FP.sub, FP.div, FP.le, h, sub_self, zero_div]
        linarith
  | nan => rfl
  | pinf => rfl
  | ninf => rfl

/-- If the downward DC ratio (extreme − price)/extreme reaches a positive
threshold and the upward extreme update did not fire, then the extreme is a
nonnegative finite value and the price is not NaN. -/
theorem FP.downGuard {θ : ℚ} {p e : FP} (hθ : 0 < θ) (hup : FP.lt e p = false)
    (hg : FP.le (FP.fin θ) ((e.sub p).div e) = true) :
    ∃ q, e = FP.fin q ∧ 0 ≤ q ∧ p ≠ FP.nan := by
  cases e with
  | nan => cases p <;> simp_all [FP.sub, FP.div, FP.le]
  | pinf => cases p <;> simp_all [FP.sub, FP.div, FP.le]
  | ninf => cases p <;> simp_all [FP.sub, FP.div, FP.le, FP.lt]
  | fin a =>
      cases p with
      | nan => simp_all [FP.sub, FP.div, FP.le]
      | pinf => simp_all [FP.lt]
      | ninf =>
          by_cases h : 0 ≤ a
          · exact ⟨a, rfl, h, fun hh => FP.noConfusion hh⟩
          · simp_all [FP.sub, FP.div, FP.le, h]
      | fin b =>
          refine ⟨a, rfl, ?_, fun hh => FP.noConfusion hh⟩
          by_cases h : a = 0
          · exact le_of_eq h.symm
          · by_contra hneg
            push_neg at hneg
            have hba : b ≤ a := by
              have h2 := hup
              simp only [FP.lt, decide_eq_false_iff_not, not_lt] at h2
              exact h2
            have hg' : θ ≤ (a - b) / a := by
              simp only [FP.sub, FP.div, FP.le, h, if_false, decide_eq_true_eq] at hg
              exact hg
            rw [le_div_iff_of_neg hneg] at hg'
            nlinarith

/-- If the upward DC ratio (price − extreme)/extreme reaches a positive
threshold and the downward extreme update did not fire, then the extreme is a
nonnegative finite value and the price is not NaN. -/
theorem FP.upGuard {θ : ℚ} {p e : FP} (hθ : 0 < θ) (hup : FP.lt p e = false)
    (hg : FP.le (FP.fin θ) ((p.sub e).div e) = true) :
    ∃ q, e = FP.fin q ∧ 0 ≤ q ∧ p ≠ FP.nan := by
  cases e with
  | nan => cases p <;> simp_all [FP.sub, FP.div, FP.le]
  | pinf => cases p <;> simp_all [FP.sub, FP.div, FP.le, FP.lt]
  | ninf => cases p <;> simp_all [FP.sub, FP.div, FP.le, FP.lt]
  | fin a =>
      cases p with
      | nan => simp_all [FP.sub, FP.div, FP.le]
      | ninf => simp_all [FP.lt]
      | pinf =>
          by_cases h : 0 ≤ a
          · exact ⟨a, rfl, h, fun hh => FP.noConfusion hh⟩
          · simp_all [FP.sub, FP.div, FP.le, h]
      | fin b =>
          refine ⟨a, rfl, ?_, fun hh => FP.noConfusion hh⟩
          by_cases h : a = 0
          · exact le_of_eq h.symm
          · by_contra hneg
            push_neg at hneg
            have hba : a ≤ b := by
              have h2 := hup
              simp only [FP.lt, decide_eq_false_iff_not, not_lt] at h2
              exact h2
            have hg' : θ ≤ (b - a) / a := by
              simp only [FP.sub, FP.div, FP.le, h, if_false, decide_eq_true_eq] at hg
              exact hg
            rw [le_div_iff_of_neg hneg] at hg'
            nlinarith

/-- calculateTMV is nonnegative whenever the previous-extreme argument is a
nonnegative finite value and the price is not NaN (the positive threshold makes
the denominator nonnegative, and the numerator is an absolute value). -/
theorem DCIndicator.tmv_nonneg (s : DCIndicator) (p : FP) (q : ℚ) (hθ : 0 < s.theta_)
    (hq : 0 ≤ q) (hp : p ≠ FP.nan) :
    FP.le (FP.fin 0) (s.calculateTMV p (FP.fin q)) = true := by
  unfold DCIndicator.calculateTMV
  by_cases h : q = 0
  · simp [FP.isNan, FP.le, h]
  · rw [if_neg (by simp [FP.isNan, h])]
    have hq' : 0 < q := lt_of_le_of_ne hq (Ne.symm h)
    have hqθ : 0 < q * s.theta_ := mul_pos hq' hθ
    cases p with
    | fin b =>
        simp only [FP.sub, FP.abs, FP.mul, FP.div, FP.le, hqθ.ne', if_false,
          decide_eq_true_eq]
        positivity
    | nan => exact absurd rfl hp
    | pinf => simp [FP.sub, FP.abs, FP.mul, FP.div, FP.le, hqθ.le]
    | ninf => simp [FP.sub, FP.abs, FP.mul, FP.div, FP.le, hqθ.le]

/-- calculateTimeAdjustedReturn is nonnegative whenever its tmv argument is
(zero on a nonpositive duration, otherwise a nonnegative value divided by a
positive duration and multiplied by the positive threshold). -/
theorem DCIndicator.tar_nonneg (s : DCIndicator) (tmv : FP) (dur : Int) (hθ : 0 < s.theta_)
    (h : FP.le (FP.fin 0) tmv = true) :
    FP.le (FP.fin 0) (s.calculateTimeAdjustedReturn tmv dur) = true := by
  unfold DCIndicator.calculateTimeAdjustedReturn
  by_cases hd : dur ≤ 0
  · simp [hd, FP.le]
  · rw [if_neg hd]
    have hdq : (0 : ℚ) < (dur : ℚ) := by
      exact_mod_cast lt_of_not_ge hd
    have hds : 0 < (dur : ℚ) / 1000000000 := by positivity
    cases tmv with
    | fin a =>
        have ha : 0 ≤ a := by simpa [FP.le] using h
        simp only [FP.div, FP.mul, FP.le, hds.ne', if_false, decide_eq_true_eq]
        exact mul_nonneg (div_nonneg ha hds.le) hθ.le
    | nan => simp [FP.le] at h
    | ninf => simp [FP.le] at h
    | pinf => simp [FP.div, FP.mul, FP.le, hds.le, hθ.ne', hθ]

/-- Claim C2: every event the detector emits (with positive threshold) carries
a nonnegative time_adjusted_return — tmv_ext is built from an absolute value
and the duration scaling keeps the sign — so the strategy engine's downturn
branch, which requires time_adjusted_return < 0, never fires:
generateTradingSignal never returns SELL on a detector-produced signal, and
hence the pipeline never publishes a sell order. -/
theorem C2_no_sell (s : DCIndicator) (dp : MarketDataPoint) (hθ : 0 < s.theta_)
    (hev : (s.processDataPoint dp).1.type ≠ DCEventType.NONE) :
    FP.le (FP.fin 0) ((s.processDataPoint dp).1.time_adjusted_return) = true ∧
    generateTradingSignal (publishDCSignal (s.processDataPoint dp).1) ≠ SignalType.SELL := by
  rcases s.processDataPoint_spec dp with ⟨hnan, hstep⟩ | ⟨hnan, s1, hs1, hdet⟩
  · rw [hstep] at hev
    exact absurd rfl hev
  · rcases hdet with ⟨hd, hu, hstep⟩ | ⟨htr, hd, hstep⟩ | ⟨htr, hu, hstep⟩
    · rw [hstep] at hev
      exact absurd rfl hev
    · have hkey : ∃ q, s1.extreme_price_ = FP.fin q ∧ 0 ≤ q ∧ dp.price ≠ FP.nan := by
        rcases hs1 with ⟨h1, h2, rfl⟩ | ⟨h1, h2, rfl⟩ | ⟨h1, h2, rfl⟩ | ⟨h1, h2, rfl⟩
        · exfalso
          have hd' := hd
          unfold DCIndicator.isDownwardDC at hd'
          dsimp only at hd'
          by_cases hpn : dp.price.isNan
          · rw [if_pos hpn] at hd'
            exact Bool.noConfusion hd'
          · rw [if_neg hpn, FP.guard_self s.theta_ dp.price hθ] at hd'
            exact Bool.noConfusion hd'
        · have hd' := hd
          unfold DCIndicator.isDownwardDC at hd'
          rw [hnan] at hd'
          simp only [Bool.false_eq_true, if_false] at hd'
          exact FP.downGuard hθ h2 hd'
        · exact absurd htr (by omega)
        · exact absurd htr (by omega)
      obtain ⟨q, he1, hq0, hpn⟩ := hkey
      have htmv : FP.le (FP.fin 0) (s.calculateTMV dp.price s1.extreme_price_) = true := by
        rw [he1]
        exact s.tmv_nonneg dp.price q hθ hq0 hpn
      have htar := s.tar_nonneg (s.calculateTMV dp.price s1.extreme_price_)
        (s.calculateDuration s1.extreme_timestamp_ s1.last_dc_timestamp_) hθ htmv
      constructor
      · rw [hstep]
        exact htar
      · rw [hstep]
        unfold generateTradingSignal publishDCSignal DCIndicator.dcEventAt
        dsimp only
        rw [FP.zero_le_not_lt_zero htar]
        simp only [Bool.false_eq_true, if_false]
        decide
    · have hkey : ∃ q, s1.extreme_price_ = FP.fin q ∧ 0 ≤ q ∧ dp.price ≠ FP.nan := by
        rcases hs1 with ⟨h1, h2, rfl⟩ | ⟨h1, h2, rfl⟩ | ⟨h1, h2, rfl⟩ | ⟨h1, h2, rfl⟩
        · exact absurd h1 (by omega)
        · exact absurd h1 (by omega)
        · exfalso
          have hu' := hu
          unfold DCIndicator.isUpwardDC at hu'
          dsimp only at hu'
          by_cases hpn : dp.price.isNan
          · rw [if_pos hpn] at hu'
            exact Bool.noConfusion hu'
          · rw [if_neg hpn, FP.guard_self s.theta_ dp.price hθ] at hu'
            exact Bool.noConfusion hu'
        · have hu' := hu
          unfold DCIndicator.isUpwardDC at hu'
          rw [hnan] at hu'
          simp only [Bool.false_eq_true, if_false] at hu'
          exact FP.upGuard hθ h2 hu'
      obtain ⟨q, he1, hq0, hpn⟩ := hkey
      have htmv : FP.le (FP.fin 0) (s.calculateTMV dp.price s1.extreme_price_) = true := by
        rw [he1]
        exact s.tmv_nonneg dp.price q hθ hq0 hpn
      have htar := s.tar_nonneg (s.calculateTMV dp.price s1.extreme_price_)
        (s.calculateDuration s1.extreme_timestamp_ s1.last_dc_timestamp_) hθ htmv
      constructor
      · rw [hstep]
        exact htar
      · rw [hstep]
        unfold generateTradingSignal publishDCSignal DCIndicator.dcEventAt
        dsimp only
        split <;> decide

/-- Witness for C2_no_sell: the downturn of spec scenario A, fired from the
detector state reached after its first four ticks. -/
theorem C2_no_sell_witness :
    (0 : ℚ) < (⟨1 / 100, 0, FP.fin 103, 3000000, FP.fin 100, 0, {}⟩ : DCIndicator).theta_ ∧
    (FP.le (FP.fin 0)
        (((⟨1 / 100, 0, FP.fin 103, 3000000, FP.fin 100, 0, {}⟩ :
            DCIndicator).processDataPoint
          ⟨4000000, FP.fin (203 / 2), FP.fin 0⟩).1.time_adjusted_return) = true ∧
      generateTradingSignal (publishDCSignal
        ((⟨1 / 100, 0, FP.fin 103, 3000000, FP.fin 100, 0, {}⟩ :
            DCIndicator).processDataPoint
          ⟨4000000, FP.fin (203 / 2), FP.fin 0⟩).1) ≠ SignalType.SELL) :=
  ⟨by norm_num,
    C2_no_sell ⟨1 / 100, 0, FP.fin 103, 3000000, FP.fin 100, 0, {}⟩
      ⟨4000000, FP.fin (203 / 2), FP.fin 0⟩ (by norm_num)
      (by
        norm_num [DCIndicator.processDataPoint, DCIndicator.isDownwardDC, FP.isNan,
          FP.sub, FP.div, FP.lt, FP.le, downturn_ne_none])⟩

/-- One-step tmv bound: with positive threshold, a positive finite running
extreme and a finite tick price, any emitted event has tmv_ext ≥ 1, because
the emitting comparison requires a relative move of at least θ against the
same extreme that calculateTMV divides by. -/
theorem DCIndicator.tmv_ge_one_step (s : DCIndicator) (dp : MarketDataPoint) (q p : ℚ)
    (hθ : 0 < s.theta_) (he : s.extreme_price_ = FP.fin q) (hq : 0 < q)
    (hp : dp.price = FP.fin p)
    (hevt : (s.processDataPoint dp).1.type ≠ DCEventType.NONE) :
    FP.le (FP.fin 1) ((s.processDataPoint dp).1.tmv_ext) = true := by
  have hqθ : 0 < q * s.theta_ := mul_pos hq hθ
  rcases s.processDataPoint_spec dp with ⟨hnan, hstep⟩ | ⟨hnan, s1, hs1, hdet⟩
  · rw [hstep] at hevt
    exact absurd rfl hevt
  · rcases hdet with ⟨_, _, hstep⟩ | ⟨htr, hd, hstep⟩ | ⟨htr, hu, hstep⟩
    · rw [hstep] at hevt
      exact absurd rfl hevt
    · rcases hs1 with ⟨h1, h2, rfl⟩ | ⟨h1, h2, rfl⟩ | ⟨h1, h2, rfl⟩ | ⟨h1, h2, rfl⟩
      · exfalso
        have hd' := hd
        unfold DCIndicator.isDownwardDC at hd'
        dsimp only at hd'
        by_cases hpn : dp.price.isNan
        · rw [if_pos hpn] at hd'
          exact Bool.noConfusion hd'
        · rw [if_neg hpn, FP.guard_self s.theta_ dp.price hθ] at hd'
          exact Bool.noConfusion hd'
      · have hd' := hd
        unfold DCIndicator.isDownwardDC at hd'
        rw [hnan] at hd'
        simp only [Bool.false_eq_true, if_false] at hd'
        rw [he, hp] at hd'
        rw [hp, he] at h2
        simp only [FP.sub, FP.div, FP.le, hq.ne', if_false, decide_eq_true_eq] at hd'
        simp only [FP.lt, decide_eq_false_iff_not, not_lt] at h2
        rw [le_div_iff₀ hq] at hd'
        rw [hstep]
        unfold DCIndicator.dcEventAt DCIndicator.calculateTMV
        dsimp only
        rw [hp, he]
        rw [if_neg (by simp [FP.isNan, hq.ne'])]
        simp only [FP.sub, FP.abs, FP.mul, FP.div, FP.le, hqθ.ne', if_false,
          decide_eq_true_eq]
        rw [abs_of_nonpos (by linarith : p - q ≤ 0)]
        rw [le_div_iff₀ hqθ]
        linarith
      · exact absurd h1 (by omega)
      · exact absurd h1 (by omega)
    · rcases hs1 with ⟨h1, h2, rfl⟩ | ⟨h1, h2, rfl⟩ | ⟨h1, h2, rfl⟩ | ⟨h1, h2, rfl⟩
      · exact absurd h1 (by omega)
      · exact absurd h1 (by omega)
      · exfalso
        have hu' := hu
        unfold DCIndicator.isUpwardDC at hu'
        dsimp only at hu'
        by_cases hpn : dp.price.isNan
        · rw [if_pos hpn] at hu'
          exact Bool.noConfusion hu'
        · rw [if_neg hpn, FP.guard_self s.theta_ dp.price hθ] at hu'
          exact Bool.noConfusion hu'
      · have hu' := hu
        unfold DCIndicator.isUpwardDC at hu'
        rw [hnan] at hu'
        simp only [Bool.false_eq_true, if_false] at hu'
        rw [he, hp] at hu'
        rw [hp, he] at h2
        simp only [FP.sub, FP.div, FP.le, hq.ne', if_false, decide_eq_true_eq] at hu'
        simp only [FP.lt, decide_eq_false_iff_not, not_lt] at h2
        rw [le_div_iff₀ hq] at hu'
        rw [hstep]
        unfold DCIndicator.dcEventAt DCIndicator.calculateTMV
        dsimp only
        rw [hp, he]
        rw [if_neg (by simp [FP.isNan, hq.ne'])]
        simp only [FP.sub, FP.abs, FP.mul, FP.div, FP.le, hqθ.ne', if_false,
          decide_eq_true_eq]
        rw [abs_of_nonneg (by linarith : (0 : ℚ) ≤ p - q)]
        rw [le_div_iff₀ hqθ]
        linarith

/-- Run-level tmv bound: from any state whose extreme is NaN (pre-first-tick)
or a positive finite value, a stream of positive finite prices keeps the
extreme positive and every emitted event has tmv_ext ≥ 1. -/
theorem DCIndicator.tmv_ge_one_run (l : List MarketDataPoint) :
    ∀ s : DCIndicator, 0 < s.theta_ →
      (∀ dp ∈ l, ∃ p, dp.price = FP.fin p ∧ 0 < p) →
      (s.extreme_price_ = FP.nan ∨ ∃ q, s.extreme_price_ = FP.fin q ∧ 0 < q) →
      ∀ ev ∈ (s.processAll l).1, ev.type ≠ DCEventType.NONE →
        FP.le (FP.fin 1) ev.tmv_ext = true := by
  induction l with
  | nil =>
      intro s _ _ _ ev hev
      simp [DCIndicator.processAll] at hev
  | cons dp rest ih =>
      intro s hθ hl hinv ev hev hevt
      rw [DCIndicator.processAll_cons] at hev
      obtain ⟨p, hp, hppos⟩ := hl dp (List.mem_cons_self dp rest)
      rcases List.mem_cons.mp hev with rfl | hev'
      · rcases hinv with hnan | ⟨q, he, hq⟩
        · rcases s.processDataPoint_spec dp with ⟨_, hstep⟩ | ⟨hn, _⟩
          · rw [hstep] at hevt
            exact absurd rfl hevt
          · rw [hnan] at hn
            simp [FP.isNan] at hn
        · exact s.tmv_ge_one_step dp q p hθ he hq hp hevt
      · refine ih (s.processDataPoint dp).2 (by rw [DCIndicator.theta_step]; exact hθ)
          (fun d hd => hl d (List.mem_cons_of_mem dp hd)) ?_ ev hev' hevt
        rcases s.processDataPoint_spec dp with ⟨hnan, hstep⟩ | ⟨hn, s1, hs1, hdet⟩
        · rw [hstep]
          exact Or.inr ⟨p, hp, hppos⟩
        · rcases hdet with ⟨_, _, hstep⟩ | ⟨_, _, hstep⟩ | ⟨_, _, hstep⟩
          · rw [hstep]
            rcases hs1 with ⟨_, _, rfl⟩ | ⟨_, _, rfl⟩ | ⟨_, _, rfl⟩ | ⟨_, _, rfl⟩
            · exact Or.inr ⟨p, hp, hppos⟩
            · rcases hinv with hnan | hfin
              · rw [hnan] at hn
                simp [FP.isNan] at hn
              · exact Or.inr hfin
            · exact Or.inr ⟨p, hp, hppos⟩
            · rcases hinv with hnan | hfin
              · rw [hnan] at hn
                simp [FP.isNan] at hn
              · exact Or.inr hfin
          · rw [hstep]
            exact Or.inr ⟨p, hp, hppos⟩
          · rw [hstep]
            exact Or.inr ⟨p, hp, hppos⟩

/-- Claim C5: for every input tick sequence with finite positive prices and
every θ > 0, every event the fresh detector emits has tmv_ext ≥ 1. -/
theorem C5_tmv_ge_one (θ : ℚ) (l : List MarketDataPoint) (hθ : 0 < θ)
    (hl : ∀ dp ∈ l, ∃ p, dp.price = FP.fin p ∧ 0 < p) :
    ∀ ev ∈ ((DCIndicator.create θ).processAll l).1, ev.type ≠ DCEventType.NONE →
      FP.le (FP.fin 1) ev.tmv_ext = true :=
  DCIndicator.tmv_ge_one_run l (DCIndicator.create θ) hθ hl (Or.inl rfl)

/-- Witness for C5_tmv_ge_one: the downturn of spec scenario A has
tmv_ext = 150/103 ≥ 1. -/
theorem C5_tmv_ge_one_witness :
    FP.le (FP.fin 1)
      ({ type := DCEventType.DOWNTURN
         timestamp := 4000000
         price := FP.fin (203 / 2)
         tmv_ext := FP.fin (150 / 103)
         duration := 3000000
         time_adjusted_return := FP.fin (500 / 103) } : DCEvent).tmv_ext = true :=
  C5_tmv_ge_one (1 / 100) scenarioA (by norm_num)
    (by
      intro dp hdp
      fin_cases hdp <;> exact ⟨_, rfl, by norm_num⟩)
    _
    (by
      norm_num [DCIndicator.processAll, DCIndicator.processDataPoint,
        DCIndicator.create, DCIndicator.calculateTMV, DCIndicator.calculateDuration,
        DCIndicator.calculateTimeAdjustedReturn, DCIndicator.isUpwardDC,
        DCIndicator.isDownwardDC, FP.sub, FP.mul, FP.div, FP.abs, FP.lt, FP.le,
        FP.isNan, scenarioA, downturn_ne_none, abs_of_pos])
    (by decide)

/-- Unfolding of steps over the first tick of a run. -/
theorem DCIndicator.steps_cons (s : DCIndicator) (dp : MarketDataPoint)
    (rest : List MarketDataPoint) :
    s.steps (dp :: rest) =
      (s, dp, (s.processDataPoint dp).1, (s.processDataPoint dp).2) ::
        (s.processDataPoint dp).2.steps rest := rfl

/-- One-step duration fact: if the state is pre-first-tick or its timestamps
satisfy last_dc ≤ extreme ≤ tick, then an emitted event's duration equals the
difference between the new and old previous-extreme timestamps and is
nonnegative. -/
theorem DCIndicator.duration_step (s : DCIndicator) (dp0 : MarketDataPoint)
    (hinv : s.extreme_price_.isNan = true ∨
      (s.last_dc_timestamp_ ≤ s.extreme_timestamp_ ∧
        s.extreme_timestamp_ ≤ dp0.timestamp))
    (hevt : (s.processDataPoint dp0).1.type ≠ DCEventType.NONE) :
    (s.processDataPoint dp0).1.duration =
      (s.processDataPoint dp0).2.last_dc_timestamp_ - s.last_dc_timestamp_ ∧
    0 ≤ (s.processDataPoint dp0).1.duration := by
  rcases s.processDataPoint_spec dp0 with ⟨hnan, hstep⟩ | ⟨hn, s1, hs1, hdet⟩
  · rw [hstep] at hevt
    exact absurd rfl hevt
  · rcases hinv with hbad | ⟨hts1, hdp0⟩
    · rw [hbad] at hn
      exact Bool.noConfusion hn
    have hs1facts : s1.last_dc_timestamp_ = s.last_dc_timestamp_ ∧
        (s1.extreme_timestamp_ = s.extreme_timestamp_ ∨
          s1.extreme_timestamp_ = dp0.timestamp) := by
      rcases hs1 with ⟨_, _, rfl⟩ | ⟨_, _, rfl⟩ | ⟨_, _, rfl⟩ | ⟨_, _, rfl⟩
      · exact ⟨rfl, Or.inr rfl⟩
      · exact ⟨rfl, Or.inl rfl⟩
      · exact ⟨rfl, Or.inr rfl⟩
      · exact ⟨rfl, Or.inl rfl⟩
    obtain ⟨hld, hext⟩ := hs1facts
    rcases hdet with ⟨_, _, hstep⟩ | ⟨_, _, hstep⟩ | ⟨_, _, hstep⟩
    · rw [hstep] at hevt
      exact absurd rfl hevt
    · rw [hstep]
      constructor
      · show s1.extreme_timestamp_ - s1.last_dc_timestamp_ =
          s1.extreme_timestamp_ - s.last_dc_timestamp_
        rw [hld]
      · show 0 ≤ s1.extreme_timestamp_ - s1.last_dc_timestamp_
        rw [hld]
        rcases hext with h | h <;> rw [h] <;> omega
    · rw [hstep]
      constructor
      · show s1.extreme_timestamp_ - s1.last_dc_timestamp_ =
          s1.extreme_timestamp_ - s.last_dc_timestamp_
        rw [hld]
      · show 0 ≤ s1.extreme_timestamp_ - s1.last_dc_timestamp_
        rw [hld]
        rcases hext with h | h <;> rw [h] <;> omega

/-- Run-level duration invariant: under non-decreasing timestamps, and from a
state that is pre-first-tick or whose timestamps satisfy last_dc ≤ extreme ≤
(all remaining ticks), every emitted event's duration is the difference of the
previous-extreme timestamps around the rotation, and is nonnegative. -/
theorem DCIndicator.duration_aux (l : List MarketDataPoint) :
    ∀ s : DCIndicator,
      List.Pairwise (fun a b : MarketDataPoint => a.timestamp ≤ b.timestamp) l →
      (s.extreme_price_.isNan = true ∨
        (s.last_dc_timestamp_ ≤ s.extreme_timestamp_ ∧
          ∀ dp ∈ l, s.extreme_timestamp_ ≤ dp.timestamp)) →
      ∀ pre (dp : MarketDataPoint) (ev : DCEvent) post,
        (pre, dp, ev, post) ∈ s.steps l → ev.type ≠ DCEventType.NONE →
          ev.duration = post.last_dc_timestamp_ - pre.last_dc_timestamp_ ∧
          0 ≤ ev.duration := by
  induction l with
  | nil =>
      intro s _ _ pre dp ev post hmem
      simp [DCIndicator.steps] at hmem
  | cons dp0 rest ih =>
      intro s hpw hinv pre dp ev post hmem hevt
      have hpw' : List.Pairwise (fun a b : MarketDataPoint => a.timestamp ≤ b.timestamp) rest :=
        hpw.of_cons
      have hhead : ∀ d ∈ rest, dp0.timestamp ≤ d.timestamp :=
        (List.pairwise_cons.mp hpw).1
      rw [DCIndicator.steps_cons] at hmem
      rcases List.mem_cons.mp hmem with heq | hmem'
      · simp only [Prod.mk.injEq] at heq
        obtain ⟨h1, h2, h3, h4⟩ := heq
        rw [h3] at hevt
        rw [h1, h3, h4]
        exact DCIndicator.duration_step s dp0
          (by
            rcases hinv with hbad | ⟨hts1, hts2⟩
            · exact Or.inl hbad
            · exact Or.inr ⟨hts1, hts2 dp0 (List.mem_cons_self _ _)⟩)
          hevt
      · refine ih (s.processDataPoint dp0).2 hpw' ?_ pre dp ev post hmem' hevt
        rcases s.processDataPoint_spec dp0 with ⟨hnan, hstep⟩ | ⟨hn, s1, hs1, hdet⟩
        · rw [hstep]
          exact Or.inr ⟨le_refl _, fun d hd => hhead d hd⟩
        · rcases hinv with hbad | ⟨hts1, hts2⟩
          · rw [hbad] at hn
            exact Bool.noConfusion hn
          have hdp0 : s.extreme_timestamp_ ≤ dp0.timestamp := hts2 dp0 (List.mem_cons_self _ _)
          rcases hdet with ⟨_, _, hstep⟩ | ⟨_, _, hstep⟩ | ⟨_, _, hstep⟩
          · rw [hstep]
            right
            rcases hs1 with ⟨_, _, rfl⟩ | ⟨_, _, rfl⟩ | ⟨_, _, rfl⟩ | ⟨_, _, rfl⟩
            · exact ⟨hts1.trans hdp0, fun d hd => hhead d hd⟩
            · exact ⟨hts1, fun d hd => hts2 d (List.mem_cons_of_mem dp0 hd)⟩
            · exact ⟨hts1.trans hdp0, fun d hd => hhead d hd⟩
            · exact ⟨hts1, fun d hd => hts2 d (List.mem_cons_of_mem dp0 hd)⟩
          · rw [hstep]
            right
            refine ⟨?_, fun d hd => hhead d hd⟩
            show s1.extreme_timestamp_ ≤ dp0.timestamp
            rcases hs1 with ⟨_, _, rfl⟩ | ⟨_, _, rfl⟩ | ⟨_, _, rfl⟩ | ⟨_, _, rfl⟩
            · exact le_refl _
            · exact hdp0
            · exact le_refl _
            · exact hdp0
          · rw [hstep]
            right
            refine ⟨?_, fun d hd => hhead d hd⟩
            show s1.extreme_timestamp_ ≤ dp0.timestamp
            rcases hs1 with ⟨_, _, rfl⟩ | ⟨_, _, rfl⟩ | ⟨_, _, rfl⟩ | ⟨_, _, rfl⟩
            · exact le_refl _
            · exact hdp0
            · exact le_refl _
            · exact hdp0

/-- Claim C6, amended: under non-decreasing timestamps every emitted event's
duration equals the difference between the just-closed extreme's timestamp
(which the rotation stores as the new previous-extreme timestamp) and the
prior previous-extreme timestamp, and it is nonnegative — but not necessarily
strictly positive (see the counterexample, where it is 0). -/
theorem C6_duration (θ : ℚ) (l : List MarketDataPoint)
    (hl : List.Pairwise (fun a b : MarketDataPoint => a.timestamp ≤ b.timestamp) l)
    (pre : DCIndicator) (dp : MarketDataPoint) (ev : DCEvent) (post : DCIndicator)
    (hmem : (pre, dp, ev, post) ∈ (DCIndicator.create θ).steps l)
    (hevt : ev.type ≠ DCEventType.NONE) :
    ev.duration = post.last_dc_timestamp_ - pre.last_dc_timestamp_ ∧ 0 ≤ ev.duration :=
  DCIndicator.duration_aux l (DCIndicator.create θ) hl (Or.inl rfl) pre dp ev post hmem hevt

/-- Witness for C6_duration: the zero-duration downturn of the two-tick run. -/
theorem C6_duration_witness :
    (⟨DCEventType.DOWNTURN, 1000000, FP.fin 98, FP.fin 2, 0, FP.fin 0⟩ : DCEvent).duration =
      (⟨1 / 100, -1, FP.fin 98, 1000000, FP.fin 100, 0,
        ⟨DCEventType.DOWNTURN, 1000000, FP.fin 98, FP.fin 2, 0,
          FP.fin 0⟩⟩ : DCIndicator).last_dc_timestamp_ -
      (⟨1 / 100, 0, FP.fin 100, 0, FP.fin 100, 0, {}⟩ : DCIndicator).last_dc_timestamp_ ∧
    0 ≤ (⟨DCEventType.DOWNTURN, 1000000, FP.fin 98, FP.fin 2, 0, FP.fin 0⟩ : DCEvent).duration :=
  C6_duration (1 / 100) [⟨0, FP.fin 100, FP.fin 0⟩, ⟨1000000, FP.fin 98, FP.fin 0⟩]
    (by decide) _ ⟨1000000, FP.fin 98, FP.fin 0⟩ _ _
    (by
      norm_num [DCIndicator.steps, DCIndicator.processDataPoint, DCIndicator.create,
        DCIndicator.calculateTMV, DCIndicator.calculateDuration,
        DCIndicator.calculateTimeAdjustedReturn, DCIndicator.isUpwardDC,
        DCIndicator.isDownwardDC, FP.sub, FP.mul, FP.div, FP.abs, FP.lt, FP.le,
        FP.isNan, downturn_ne_none])
    (by decide)

/-- Field behavior of updateDrawdown for an argument state whose peak and
max_drawdown agree with a reference state s0: the new peak is the max of the
old peak and the capital, the capital is below the new peak, max_drawdown never
decreases, and it stays at most 1 while capital is nonnegative. -/
theorem ExecutionEngine.updateDrawdown_facts (s0 s2 : ExecutionEngine)
    (hpeak : s2.peak_capital_ = s0.peak_capital_)
    (hmd : s2.max_drawdown = s0.max_drawdown) :
    (s2.updateDrawdown).peak_capital_ =
      max s0.peak_capital_ (s2.updateDrawdown).current_capital_ ∧
    (s2.updateDrawdown).current_capital_ ≤ (s2.updateDrawdown).peak_capital_ ∧
    s0.max_drawdown ≤ (s2.updateDrawdown).max_drawdown ∧
    (0 < s0.peak_capital_ → s0.max_drawdown ≤ 1 →
      0 ≤ (s2.updateDrawdown).current_capital_ →
      0 < (s2.updateDrawdown).peak_capital_ ∧ (s2.updateDrawdown).max_drawdown ≤ 1) := by
  rw [← hpeak, ← hmd]
  unfold ExecutionEngine.updateDrawdown
  by_cases h1 : s2.peak_capital_ < s2.current_capital_
  · rw [if_pos h1]
    try dsimp only
    by_cases h2 : s2.max_drawdown <
        (s2.current_capital_ - s2.current_capital_) / s2.current_capital_
    · rw [if_pos h2]
      try dsimp only
      refine ⟨(max_eq_right h1.le).symm, le_refl _, h2.le, fun hp hm hc => ?_⟩
      refine ⟨hp.trans h1, ?_⟩
      show (s2.current_capital_ - s2.current_capital_) / s2.current_capital_ ≤ 1
      simp
    · rw [if_neg h2]
      try dsimp only
      exact ⟨(max_eq_right h1.le).symm, le_refl _, le_refl _,
        fun hp hm hc => ⟨hp.trans h1, hm⟩⟩
  · push_neg at h1
    rw [if_neg (not_lt.mpr h1)]
    try dsimp only
    by_cases h2 : s2.max_drawdown <
        (s2.peak_capital_ - s2.current_capital_) / s2.peak_capital_
    · rw [if_pos h2]
      try dsimp only
      refine ⟨(max_eq_left h1).symm, h1, h2.le, fun hp hm hc => ?_⟩
      refine ⟨hp, ?_⟩
      show (s2.peak_capital_ - s2.current_capital_) / s2.peak_capital_ ≤ 1
      rw [div_le_one hp]
      linarith
    · rw [if_neg h2]
      try dsimp only
      exact ⟨(max_eq_left h1).symm, h1, le_refl _, fun hp hm hc => ⟨hp, hm⟩⟩

/-- One accumulator update: the new peak is the running max, capital stays
below peak, max_drawdown is monotone, and stays within 1 while capital is
nonnegative. -/
theorem ExecutionEngine.step_facts (s : ExecutionEngine) (e : TradeExecution)
    (h : s.current_capital_ ≤ s.peak_capital_) :
    (s.updatePerformanceMetrics e).peak_capital_ =
      max s.peak_capital_ (s.updatePerformanceMetrics e).current_capital_ ∧
    (s.updatePerformanceMetrics e).current_capital_ ≤
      (s.updatePerformanceMetrics e).peak_capital_ ∧
    s.max_drawdown ≤ (s.updatePerformanceMetrics e).max_drawdown ∧
    (0 < s.peak_capital_ → s.max_drawdown ≤ 1 →
      0 ≤ (s.updatePerformanceMetrics e).current_capital_ →
      0 < (s.updatePerformanceMetrics e).peak_capital_ ∧
        (s.updatePerformanceMetrics e).max_drawdown ≤ 1) := by
  unfold ExecutionEngine.updatePerformanceMetrics
  by_cases hf : e.status ≠ ExecutionStatus.FILLED
  · rw [if_pos hf]
    exact ⟨(max_eq_left h).symm, h, le_refl _, fun h1 h2 _ => ⟨h1, h2⟩⟩
  · rw [if_neg hf]
    dsimp only
    refine ExecutionEngine.updateDrawdown_facts s _ ?_ ?_ <;> (split_ifs <;> rfl)

/-- The starting state is always on its own trace. -/
theorem ExecutionEngine.self_mem_statesTrace (trades : List TradeExecution)
    (s : ExecutionEngine) : s ∈ s.statesTrace trades := by
  cases trades <;> simp [ExecutionEngine.statesTrace]

/-- Run-level accumulator facts by induction over the trade list. -/
theorem ExecutionEngine.run_facts (trades : List TradeExecution) :
    ∀ s : ExecutionEngine, s.current_capital_ ≤ s.peak_capital_ →
      (s.processAll trades).current_capital_ ≤ (s.processAll trades).peak_capital_ ∧
      s.peak_capital_ ≤ (s.processAll trades).peak_capital_ ∧
      (∀ x ∈ s.statesTrace trades,
        x.current_capital_ ≤ (s.processAll trades).peak_capital_) ∧
      ((s.processAll trades).peak_capital_ = s.peak_capital_ ∨
        ∃ x ∈ s.statesTrace trades,
          (s.processAll trades).peak_capital_ = x.current_capital_) ∧
      s.max_drawdown ≤ (s.processAll trades).max_drawdown ∧
      (0 < s.peak_capital_ → s.max_drawdown ≤ 1 →
        (∀ x ∈ s.statesTrace trades, 0 ≤ x.current_capital_) →
        (s.processAll trades).max_drawdown ≤ 1) := by
  induction trades with
  | nil =>
      intro s h
      refine ⟨h, le_refl _, ?_, Or.inl rfl, le_refl _, fun _ h2 _ => h2⟩
      intro x hx
      simp [ExecutionEngine.statesTrace] at hx
      rw [hx]
      exact h
  | cons e rest ih =>
      intro s h
      obtain ⟨hpk, hcap', hmd, hcond⟩ := ExecutionEngine.step_facts s e h
      obtain ⟨ih1, ih2, ih3, ih4, ih5, ih6⟩ := ih (s.updatePerformanceMetrics e) hcap'
      have htrace : s.statesTrace (e :: rest) =
          s :: (s.updatePerformanceMetrics e).statesTrace rest := rfl
      have hrun : s.processAll (e :: rest) =
          (s.updatePerformanceMetrics e).processAll rest := rfl
      rw [htrace, hrun]
      have hsp : s.peak_capital_ ≤ (s.updatePerformanceMetrics e).peak_capital_ := by
        rw [hpk]
        exact le_max_left _ _
      refine ⟨ih1, hsp.trans ih2, ?_, ?_, hmd.trans ih5, ?_⟩
      · intro x hx
        rcases List.mem_cons.mp hx with rfl | hx'
        · exact h.trans (hsp.trans ih2)
        · exact ih3 x hx'
      · rcases ih4 with hp | ⟨x, hx, hxe⟩
        · rw [hp, hpk]
          rcases max_choice s.peak_capital_
              (s.updatePerformanceMetrics e).current_capital_ with hm | hm
          · rw [hm]
            exact Or.inl rfl
          · rw [hm]
            exact Or.inr ⟨s.updatePerformanceMetrics e,
              List.mem_cons_of_mem s
                (ExecutionEngine.self_mem_statesTrace rest _), rfl⟩
        · exact Or.inr ⟨x, List.mem_cons_of_mem s hx, hxe⟩
      · intro h1 h2 hall
        have hcap0 : 0 ≤ (s.updatePerformanceMetrics e).current_capital_ :=
          hall (s.updatePerformanceMetrics e)
            (List.mem_cons_of_mem s (ExecutionEngine.self_mem_statesTrace rest _))
        obtain ⟨hp', hm'⟩ := hcond h1 h2 hcap0
        exact ih6 hp' hm' (fun x hx => hall x (List.mem_cons_of_mem s hx))

/-- Claim C7, amended: starting from initial_capital = peak_capital = c > 0,
after any sequence of filled-trade accumulator updates peak_capital is the
running maximum of current_capital (it dominates every capital on the trace and
is attained by one of them), and max_drawdown is nonnegative; max_drawdown ≤ 1
additionally holds whenever current_capital stays nonnegative along the run —
but not in general (see the counterexample, where it reaches 297). -/
theorem C7_peak_drawdown (c : ℚ) (trades : List TradeExecution) (hc : 0 < c) :
    (∀ x ∈ (ExecutionEngine.create c).statesTrace trades,
      x.current_capital_ ≤ ((ExecutionEngine.create c).processAll trades).peak_capital_) ∧
    (∃ x ∈ (ExecutionEngine.create c).statesTrace trades,
      ((ExecutionEngine.create c).processAll trades).peak_capital_ =
        x.current_capital_) ∧
    0 ≤ ((ExecutionEngine.create c).processAll trades).max_drawdown ∧
    ((∀ x ∈ (ExecutionEngine.create c).statesTrace trades, 0 ≤ x.current_capital_) →
      ((ExecutionEngine.create c).processAll trades).max_drawdown ≤ 1) := by
  obtain ⟨h1, h2, h3, h4, h5, h6⟩ :=
    ExecutionEngine.run_facts trades (ExecutionEngine.create c) (le_refl _)
  refine ⟨h3, ?_, h5, fun hall => h6 hc zero_le_one hall⟩
  rcases h4 with hp | hx
  · exact ⟨ExecutionEngine.create c,
      ExecutionEngine.self_mem_statesTrace trades _, hp⟩
  · exact hx

/-- Witness for C7_peak_drawdown on a single filled SELL trade. -/
theorem C7_peak_drawdown_witness :
    (0 : ℚ) < 100000 ∧
    ((∀ x ∈ (ExecutionEngine.create 100000).statesTrace
        [⟨SignalType.SELL, 100, 2, ExecutionStatus.FILLED⟩],
      x.current_capital_ ≤ ((ExecutionEngine.create 100000).processAll
        [⟨SignalType.SELL, 100, 2, ExecutionStatus.FILLED⟩]).peak_capital_) ∧
    (∃ x ∈ (ExecutionEngine.create 100000).statesTrace
        [⟨SignalType.SELL, 100, 2, ExecutionStatus.FILLED⟩],
      ((ExecutionEngine.create 100000).processAll
        [⟨SignalType.SELL, 100, 2, ExecutionStatus.FILLED⟩]).peak_capital_ =
        x.current_capital_) ∧
    0 ≤ ((ExecutionEngine.create 100000).processAll
        [⟨SignalType.SELL, 100, 2, ExecutionStatus.FILLED⟩]).max_drawdown ∧
    ((∀ x ∈ (ExecutionEngine.create 100000).statesTrace
        [⟨SignalType.SELL, 100, 2, ExecutionStatus.FILLED⟩], 0 ≤ x.current_capital_) →
      ((ExecutionEngine.create 100000).processAll
        [⟨SignalType.SELL, 100, 2, ExecutionStatus.FILLED⟩]).max_drawdown ≤ 1)) :=
  ⟨by norm_num,
    C7_peak_drawdown 100000 [⟨SignalType.SELL, 100, 2, ExecutionStatus.FILLED⟩]
      (by norm_num)⟩

end trading
